import Mathlib

/-!
Shallow embedding of the go-certstore local certificate factory
(certs, `localCertificateFactory.New`) and of the ACME provider
registration code (`certs/acme/registration.go`), with theorems checking
the specification's claims against the embedded code.

Modelling conventions:
* private keys and public keys are `Nat`; a `KeyPair` bundles the private
  key with its public component (the contract of the external `keys`
  package: `Public()` is the public component of `Private()`);
* an `x509.Certificate` (used by Go both as a template and as a parsed
  certificate) is a record of the fields the claims mention;
* the external `x509.CreateCertificate` / `x509.ParseCertificate` pair is
  modelled by `x509CreateCertificate`, which builds the certificate the
  way Go does from the template argument, the parent (issuer) argument,
  the public key and the signing key; fallibility of the two calls is an
  environment oracle (`createErr`, `parseErr`), as their failure depends
  on data outside the model;
* Go's in-place mutation of the caller-supplied template is state
  passing: `New` returns, next to its result, the template object as it
  is after the call.
-/

structure KeyPair where
  priv : Nat
  pub : Nat
deriving Repr, DecidableEq

structure Certificate where
  serialNumber : Nat
  subject : String
  issuer : String
  publicKey : Nat
  isCA : Bool
  keyUsage : Nat
  signedBy : Nat
deriving Repr, DecidableEq

/-- Model of Go `x509.CreateCertificate` composed with `x509.ParseCertificate`:
the produced certificate takes its serial number and body fields from the
template argument, its issuer name from the parent argument's subject, its
public key from the public-key argument, and is signed with the signing-key
argument. -/
def x509CreateCertificate (template parent : Certificate) (pub : Nat) (signer : Nat) :
    Certificate :=
  { serialNumber := template.serialNumber
    subject := template.subject
    issuer := parent.subject
    publicKey := pub
    isCA := template.isCA
    keyUsage := template.keyUsage
    signedBy := signer }

structure localCertificateFactory where
  template : Certificate
  parent : Option Certificate
  signer : Nat
deriving Repr, DecidableEq

/-- Modelled from the spec: the process-wide serial number generator
`nextSerialNumber` (spec §4.5), whose source file is not part of this
excerpt (only its caller is).  Per the spec, a random draw is truncated to
the 63-bit X.509 positive-integer range and zero draws are rejected.  The
random source is modelled as the list of successive draws; `none` means the
(probability-zero) event that every available draw truncated to zero. -/
def nextSerialNumber : List Nat → Option Nat
  | [] => none
  | d :: rest =>
    let s := d % 2 ^ 63
    if s = 0 then nextSerialNumber rest else some s

/-- Per-call environment for `localCertificateFactory.New`: the result of
`keyPairFactory.New()`, the serial-generator random source, and the
fallibility oracles of the two external x509 calls. -/
structure FactoryEnv where
  keyGenResult : Except String KeyPair
  serialDraws : List Nat
  createErr : Option String
  parseErr : Option String
deriving Repr

/-- Embedding of `localCertificateFactory.New` (certs package).  The Go
method aliases `createTemplate := factory.template` (a pointer) and mutates
its `SerialNumber` in place; the second component of the result is that
shared template object after the call.  NOTE (faithful to the source): in
the parent-signed branch the source passes `createTemplate` — not
`factory.parent` — as the issuer-certificate argument of
`x509.CreateCertificate`. -/
def localCertificateFactory.New (factory : localCertificateFactory) (env : FactoryEnv) :
    Except String (Nat × Certificate) × Certificate :=
  match env.keyGenResult with
  | .error err => (.error err, factory.template)
  | .ok keyPair =>
    match factory.parent with
    | some _ =>
      -- parent signed
      match nextSerialNumber env.serialDraws with
      | none => (.error "serial generator exhausted", factory.template)
      | some serial =>
        let createTemplate := { factory.template with serialNumber := serial }
        match env.createErr with
        | some e => (.error ("failed to create certificate (cause: " ++ e ++ ")"), createTemplate)
        | none =>
          let certificate :=
            x509CreateCertificate createTemplate createTemplate keyPair.pub factory.signer
          match env.parseErr with
          | some e => (.error ("failed parse certificate bytes (cause: " ++ e ++ ")"), createTemplate)
          | none => (.ok (keyPair.priv, certificate), createTemplate)
    | none =>
      -- self-signed
      let createTemplate := { factory.template with serialNumber := 1 }
      match env.createErr with
      | some e => (.error ("failed to create certificate (cause: " ++ e ++ ")"), createTemplate)
      | none =>
        let certificate :=
          x509CreateCertificate createTemplate createTemplate keyPair.pub keyPair.priv
        match env.parseErr with
        | some e => (.error ("failed parse certificate bytes (cause: " ++ e ++ ")"), createTemplate)
        | none => (.ok (keyPair.priv, certificate), createTemplate)

/-!
ACME provider registrations (`certs/acme/registration.go`).

* `registration.Resource` (an external lego type) is opaque: `Option Nat`
  models the nilable pointer;
* a registration file's contents are a byte list; Go `os.File.Read` into a
  buffer of length `bufLen` at `offset` yields `min bufLen (remaining)`
  bytes;
* the external `encoding/json` codec is a parameter (`JsonCodec`): `enc`
  models `json.MarshalIndent` with two-space indent and `dec` models
  `json.Unmarshal` into a `ProviderRegistration` list (`none` = error);
* the external PKCS#8 marshalling and parsing functions are parameters of
  the operations that call them;
* `encoding/base64` standard encoding is implemented concretely
  (`base64Encode` / `base64Decode`).
-/

structure ProviderRegistration where
  Provider : String
  Email : String
  EncodedKey : String
  Registration : Option Nat
deriving Repr, DecidableEq

/-- Embedding of `ProviderRegistration.matches`: provider AND email equal. -/
def ProviderRegistration.matches (a b : ProviderRegistration) : Bool :=
  a.Provider == b.Provider && a.Email == b.Email

structure ProviderConfig where
  Name : String
  RegistrationEmail : String
deriving Repr, DecidableEq

structure JsonCodec where
  enc : List ProviderRegistration → List Nat
  dec : List Nat → Option (List ProviderRegistration)

/-- The RFC 4648 standard alphabet used by Go standard base64 encoding. -/
def b64Alphabet : List Char :=
  "ABCDEFGHIJKLMNOPQRSTUVWXYZabcdefghijklmnopqrstuvwxyz0123456789+/".toList

def b64Char (i : Nat) : Char := b64Alphabet.getD i 'A'

def b64Index (c : Char) : Option Nat := b64Alphabet.findIdx? (fun x => x == c)

/-- Byte-level standard base64 encoding with padding, as Go
base64.StdEncoding.EncodeToString produces. -/
def base64EncodeBytes : List Nat → List Char
  | a :: b :: c :: rest =>
    b64Char (a / 4) :: b64Char (a % 4 * 16 + b / 16) ::
      b64Char (b % 16 * 4 + c / 64) :: b64Char (c % 64) :: base64EncodeBytes rest
  | [a, b] => [b64Char (a / 4), b64Char (a % 4 * 16 + b / 16), b64Char (b % 16 * 4), '=']
  | [a] => [b64Char (a / 4), b64Char (a % 4 * 16), '=', '=']
  | [] => []

/-- Byte-level standard base64 decoding, as Go
base64.StdEncoding.DecodeString behaves (default, non-strict mode):
groups of four characters, padding only in the final group, unused bits of
a padded group discarded, `none` on any malformed input. -/
def b64DecodeGroups : List Char → Option (List Nat)
  | [] => some []
  | c0 :: c1 :: c2 :: c3 :: rest =>
    match b64Index c0, b64Index c1 with
    | some i0, some i1 =>
      if c2 = '=' then
        if c3 = '=' && rest.isEmpty then some [i0 * 4 + i1 / 16] else none
      else
        match b64Index c2 with
        | some i2 =>
          if c3 = '=' then
            if rest.isEmpty then some [i0 * 4 + i1 / 16, i1 % 16 * 16 + i2 / 4] else none
          else
            match b64Index c3 with
            | some i3 =>
              match b64DecodeGroups rest with
              | some tail =>
                some ((i0 * 4 + i1 / 16) :: (i1 % 16 * 16 + i2 / 4) :: (i2 % 4 * 64 + i3) :: tail)
              | none => none
            | none => none
        | none => none
    | _, _ => none
  | _ => none

def base64Encode (bs : List Nat) : String := String.mk (base64EncodeBytes bs)

def base64Decode (s : String) : Option (List Nat) := b64DecodeGroups s.data

/-- Embedding of `ProviderRegistration.GetPrivateKey`.  The Go method has no
error return: it yields `nil` (here `none`) on empty `EncodedKey`, on a
base64 decoding error, and on a PKCS#8 parsing error, and the parsed key
otherwise.  `pkcs8Parse` models the external PKCS#8 DER parser. -/
def ProviderRegistration.GetPrivateKey (pkcs8Parse : List Nat → Option Nat)
    (r : ProviderRegistration) : Option Nat :=
  if r.EncodedKey = "" then none
  else
    match base64Decode r.EncodedKey with
    | none => none
    | some keyBytes =>
      match pkcs8Parse keyBytes with
      | none => none
      | some key => some key

/-- The read loop inside `unmarshalProviderRegistrations`, embedded
faithfully: `readBytes` starts as a buffer of LENGTH zero (and capacity
4096), and each iteration reads at most the buffer's length in bytes; the
loop breaks as soon as a call reads zero bytes.  `fuel` bounds the
iteration count (the actual loop always breaks on its first iteration,
because the buffer's length is zero). -/
def unmarshalReadLoop (fuel : Nat) (contents : List Nat) (offset : Nat)
    (readBytes : List Nat) : List Nat :=
  match fuel with
  | 0 => readBytes
  | fuel + 1 =>
    let read := min readBytes.length (contents.length - offset)
    if read = 0 then readBytes
    else
      unmarshalReadLoop fuel contents (offset + read)
        ((contents.drop offset).take read ++ readBytes.drop read)

/-- Embedding of `unmarshalProviderRegistrations`: run the read loop over
the file's contents, then unmarshal the collected bytes when there are
any, and return the empty list otherwise. -/
def unmarshalProviderRegistrations (codec : JsonCodec) (contents : List Nat) :
    Except String (List ProviderRegistration) :=
  let readBytes := unmarshalReadLoop (contents.length + 1) contents 0 []
  if readBytes.length > 0 then
    match codec.dec readBytes with
    | some registrations => .ok registrations
    | none => .error "unmarshal failed"
  else .ok []

/-- Embedding of `prepareProviderRegistration`: unmarshal the file, return
the first stored record whose `Provider` field equals the requested
provider's `Name` (the Go loop compares only the provider name), and
otherwise generate a key pair (`keyGen` models the key pair factory),
PKCS#8-marshal its private key (`pkcs8Marshal`), and return a fresh
record with no registration resource. -/
def prepareProviderRegistration (codec : JsonCodec) (contents : List Nat)
    (provider : ProviderConfig) (keyGen : Except String KeyPair)
    (pkcs8Marshal : Nat → Except String (List Nat)) :
    Except String ProviderRegistration :=
  match unmarshalProviderRegistrations codec contents with
  | .error e => .error e
  | .ok registrations =>
    match registrations.find? (fun r => r.Provider == provider.Name) with
    | some r => .ok r
    | none =>
      match keyGen with
      | .error e => .error e
      | .ok key =>
        match pkcs8Marshal key.priv with
        | .error e => .error ("failed to marshal private key (cause: " ++ e ++ ")")
        | .ok keyBytes =>
          .ok { Provider := provider.Name
                Email := provider.RegistrationEmail
                EncodedKey := base64Encode keyBytes
                Registration := none }

/-- Embedding of `ProviderRegistration.updateProviderRegistrations`:
unmarshal the file, replace the first stored record matching the updated
registration (per `matches`: provider AND email) or append the
registration, marshal with two-space indentation, and — after seeking to
offset 0 and truncating to length 0 — write the marshalled bytes, which
therefore become the file's entire new contents (the returned value). -/
def updateProviderRegistrations (codec : JsonCodec) (reg : ProviderRegistration)
    (contents : List Nat) : Except String (List Nat) :=
  match unmarshalProviderRegistrations codec contents with
  | .error e => .error e
  | .ok fileRegistrations =>
    let newRegistrations :=
      match fileRegistrations.findIdx? (fun r => r.matches reg) with
      | some updateIndex => fileRegistrations.set updateIndex reg
      | none => fileRegistrations ++ [reg]
    .ok (codec.enc newRegistrations)

/-!
Concrete inputs used by counterexample evaluations and witnesses.
-/

/-- A parent (issuer) certificate with subject differing from the template's. -/
def rootParent : Certificate :=
  { serialNumber := 7, subject := "root", issuer := "root", publicKey := 10,
    isCA := true, keyUsage := 1, signedBy := 10 }

/-- A certificate template for a leaf signed by `rootParent`. -/
def leafTemplate : Certificate :=
  { serialNumber := 0, subject := "leaf", issuer := "", publicKey := 0,
    isCA := false, keyUsage := 0, signedBy := 0 }

def leafFactory : localCertificateFactory :=
  { template := leafTemplate, parent := some rootParent, signer := 10 }

def okEnv : FactoryEnv :=
  { keyGenResult := .ok { priv := 3, pub := 4 }, serialDraws := [9],
    createErr := none, parseErr := none }

def storedRegistration : ProviderRegistration :=
  { Provider := "p1", Email := "e1", EncodedKey := "stored-key", Registration := some 1 }

def updatedRegistration : ProviderRegistration :=
  { Provider := "p2", Email := "e2", EncodedKey := "updated-key", Registration := some 2 }

def requestProvider : ProviderConfig :=
  { Name := "p1", RegistrationEmail := "e1" }

/-- A concrete instantiation of the external JSON codec, injective on the
registration lists the concrete evaluations touch; nonempty lists marshal
to nonempty byte strings, as real JSON does. -/
def toyCodec : JsonCodec where
  enc regs :=
    if regs = [storedRegistration] then [1]
    else if regs = [updatedRegistration] then [2]
    else if regs = [storedRegistration, updatedRegistration] then [3]
    else if regs = [] then []
    else [9]
  dec bs :=
    if bs = [1] then some [storedRegistration]
    else if bs = [2] then some [updatedRegistration]
    else if bs = [3] then some [storedRegistration, updatedRegistration]
    else if bs = [] then some []
    else none

/-- A concrete instantiation of the external PKCS#8 marshaller: key 5 has
DER [5]. -/
def toyPkcs8Marshal : Nat → Except String (List Nat) := fun key => .ok [key % 256]

/-- A concrete instantiation of the external PKCS#8 parser, inverse of
`toyPkcs8Marshal` on single bytes. -/
def toyPkcs8Parse : List Nat → Option Nat := fun bs =>
  match bs with
  | [b] => some b
  | _ => none

theorem unmarshalReadLoop_nil (fuel : Nat) (contents : List Nat) (offset : Nat) :
    unmarshalReadLoop fuel contents offset [] = [] := by
  cases fuel with
  | zero => rfl
  | succ n => simp [unmarshalReadLoop]

theorem unmarshal_always_empty (codec : JsonCodec) (contents : List Nat) :
    unmarshalProviderRegistrations codec contents = .ok [] := by
  simp [unmarshalProviderRegistrations, unmarshalReadLoop_nil]

theorem nextSerialNumber_bounds (l : List Nat) (s : Nat)
    (h : nextSerialNumber l = some s) : 1 ≤ s ∧ s < 2 ^ 63 := by
  induction l with
  | nil => simp [nextSerialNumber] at h
  | cons d rest ih =>
    simp only [nextSerialNumber] at h
    split at h
    · exact ih h
    · rename_i hz
      obtain rfl : d % 2 ^ 63 = s := by exact Option.some.inj h
      refine ⟨Nat.one_le_iff_ne_zero.mpr hz, Nat.mod_lt _ (by norm_num)⟩

theorem b64Index_b64Char_fin : ∀ i : Fin 64, b64Index (b64Char i.val) = some i.val := by decide

theorem b64Char_ne_pad_fin : ∀ i : Fin 64, b64Char i.val ≠ '=' := by decide

theorem b64Index_b64Char (i : Nat) (h : i < 64) : b64Index (b64Char i) = some i :=
  b64Index_b64Char_fin ⟨i, h⟩

theorem b64Char_ne_pad (i : Nat) (h : i < 64) : b64Char i ≠ '=' :=
  b64Char_ne_pad_fin ⟨i, h⟩

theorem b64_roundtrip : ∀ bs : List Nat, (∀ b ∈ bs, b < 256) →
    b64DecodeGroups (base64EncodeBytes bs) = some bs
  | [], _ => rfl
  | [a], h => by
    have ha : a < 256 := h a (by simp)
    have e0 : a / 4 < 64 := by omega
    have e1 : a % 4 * 16 < 64 := by omega
    simp only [base64EncodeBytes, b64DecodeGroups, b64Index_b64Char _ e0,
      b64Index_b64Char _ e1, if_pos rfl, List.isEmpty_nil, Bool.and_true]
    simp only [if_true, decide_True, if_pos rfl]
    have : a / 4 * 4 + a % 4 * 16 / 16 = a := by omega
    rw [this]
  | [a, b], h => by
    have ha : a < 256 := h a (by simp)
    have hb : b < 256 := h b (by simp)
    have e0 : a / 4 < 64 := by omega
    have e1 : a % 4 * 16 + b / 16 < 64 := by omega
    have e2 : b % 16 * 4 < 64 := by omega
    simp only [base64EncodeBytes, b64DecodeGroups, b64Index_b64Char _ e0,
      b64Index_b64Char _ e1, b64Index_b64Char _ e2, if_neg (b64Char_ne_pad _ e2),
      if_pos rfl, List.isEmpty_nil, if_true]
    have r0 : a / 4 * 4 + (a % 4 * 16 + b / 16) / 16 = a := by omega
    have r1 : (a % 4 * 16 + b / 16) % 16 * 16 + b % 16 * 4 / 4 = b := by omega
    simp [r0, r1]
    omega
  | a :: b :: c :: rest, h => by
    have ha : a < 256 := h a (by simp)
    have hb : b < 256 := h b (by simp)
    have hc : c < 256 := h c (by simp)
    have e0 : a / 4 < 64 := by omega
    have e1 : a % 4 * 16 + b / 16 < 64 := by omega
    have e2 : b % 16 * 4 + c / 64 < 64 := by omega
    have e3 : c % 64 < 64 := by omega
    have ih := b64_roundtrip rest (fun x hx => h x (by simp [hx]))
    simp only [base64EncodeBytes, b64DecodeGroups, b64Index_b64Char _ e0,
      b64Index_b64Char _ e1, b64Index_b64Char _ e2, b64Index_b64Char _ e3,
      if_neg (b64Char_ne_pad _ e2), if_neg (b64Char_ne_pad _ e3), ih]
    have r0 : a / 4 * 4 + (a % 4 * 16 + b / 16) / 16 = a := by omega
    have r1 : (a % 4 * 16 + b / 16) % 16 * 16 + (b % 16 * 4 + c / 64) / 4 = b := by omega
    have r2 : (b % 16 * 4 + c / 64) % 4 * 64 + c % 64 = c := by omega
    simp [r0, r1, r2]

theorem base64Decode_base64Encode (bs : List Nat) (h : ∀ b ∈ bs, b < 256) :
    base64Decode (base64Encode bs) = some bs :=
  b64_roundtrip bs h

theorem base64Encode_ne_empty (bs : List Nat) (h : bs ≠ []) : base64Encode bs ≠ "" := by
  match bs with
  | [] => exact absurd rfl h
  | [a] => simp [base64Encode, base64EncodeBytes, String.ext_iff]
  | [a, b] => simp [base64Encode, base64EncodeBytes, String.ext_iff]
  | a :: b :: c :: rest => simp [base64Encode, base64EncodeBytes, String.ext_iff]

theorem New_keygen_error (f : localCertificateFactory) (env : FactoryEnv) (e : String)
    (h : env.keyGenResult = .error e) : (f.New env).1 = .error e := by
  simp [localCertificateFactory.New, h]

theorem New_ok_self (f : localCertificateFactory) (env : FactoryEnv) (kp : KeyPair)
    (hkg : env.keyGenResult = .ok kp) (hp : f.parent = none)
    (hc : env.createErr = none) (hpe : env.parseErr = none) :
    (f.New env).1 = .ok (kp.priv,
      x509CreateCertificate { f.template with serialNumber := 1 }
        { f.template with serialNumber := 1 } kp.pub kp.priv) := by
  simp [localCertificateFactory.New, hkg, hp, hc, hpe]

theorem New_ok_parent (f : localCertificateFactory) (env : FactoryEnv) (kp : KeyPair)
    (p : Certificate) (s : Nat)
    (hkg : env.keyGenResult = .ok kp) (hp : f.parent = some p)
    (hs : nextSerialNumber env.serialDraws = some s)
    (hc : env.createErr = none) (hpe : env.parseErr = none) :
    (f.New env).1 = .ok (kp.priv,
      x509CreateCertificate { f.template with serialNumber := s }
        { f.template with serialNumber := s } kp.pub f.signer) := by
  simp [localCertificateFactory.New, hkg, hp, hs, hc, hpe]

theorem New_ok_inv (f : localCertificateFactory) (env : FactoryEnv) (key : Nat)
    (cert : Certificate) (h : (f.New env).1 = .ok (key, cert)) :
    ∃ kp, env.keyGenResult = .ok kp ∧ env.createErr = none ∧ env.parseErr = none ∧
      key = kp.priv ∧
      ((f.parent = none ∧
          cert = x509CreateCertificate { f.template with serialNumber := 1 }
            { f.template with serialNumber := 1 } kp.pub kp.priv) ∨
       (∃ p s, f.parent = some p ∧ nextSerialNumber env.serialDraws = some s ∧
          cert = x509CreateCertificate { f.template with serialNumber := s }
            { f.template with serialNumber := s } kp.pub f.signer)) := by
  cases hkg : env.keyGenResult with
  | error e => simp [localCertificateFactory.New, hkg] at h
  | ok kp =>
    cases hp : f.parent with
    | none =>
      cases hc : env.createErr with
      | some e => simp [localCertificateFactory.New, hkg, hp, hc] at h
      | none =>
        cases hpe : env.parseErr with
        | some e => simp [localCertificateFactory.New, hkg, hp, hc, hpe] at h
        | none =>
          rw [New_ok_self f env kp hkg hp hc hpe] at h
          simp only [Except.ok.injEq, Prod.mk.injEq] at h
          obtain ⟨h1, h2⟩ := h
          exact ⟨kp, rfl, rfl, rfl, h1.symm, Or.inl ⟨rfl, h2.symm⟩⟩
    | some p =>
      cases hs : nextSerialNumber env.serialDraws with
      | none => simp [localCertificateFactory.New, hkg, hp, hs] at h
      | some s =>
        cases hc : env.createErr with
        | some e => simp [localCertificateFactory.New, hkg, hp, hs, hc] at h
        | none =>
          cases hpe : env.parseErr with
          | some e => simp [localCertificateFactory.New, hkg, hp, hs, hc, hpe] at h
          | none =>
            rw [New_ok_parent f env kp p s hkg hp hs hc hpe] at h
            simp only [Except.ok.injEq, Prod.mk.injEq] at h
            obtain ⟨h1, h2⟩ := h
            exact ⟨kp, rfl, rfl, rfl, h1.symm, Or.inr ⟨p, s, rfl, rfl, h2.symm⟩⟩

theorem New_template_self (f : localCertificateFactory) (env : FactoryEnv) (kp : KeyPair)
    (hkg : env.keyGenResult = .ok kp) (hp : f.parent = none) :
    (f.New env).2 = { f.template with serialNumber := 1 } := by
  cases hc : env.createErr <;> cases hpe : env.parseErr <;>
    simp [localCertificateFactory.New, hkg, hp, hc, hpe]

theorem New_template_parent (f : localCertificateFactory) (env : FactoryEnv) (kp : KeyPair)
    (p : Certificate) (s : Nat) (hkg : env.keyGenResult = .ok kp) (hp : f.parent = some p)
    (hs : nextSerialNumber env.serialDraws = some s) :
    (f.New env).2 = { f.template with serialNumber := s } := by
  cases hc : env.createErr <;> cases hpe : env.parseErr <;>
    simp [localCertificateFactory.New, hkg, hp, hs, hc, hpe]

theorem New_create_error_self (f : localCertificateFactory) (env : FactoryEnv) (kp : KeyPair)
    (e : String) (hkg : env.keyGenResult = .ok kp) (hp : f.parent = none)
    (hc : env.createErr = some e) :
    (f.New env).1 = .error ("failed to create certificate (cause: " ++ e ++ ")") := by
  simp [localCertificateFactory.New, hkg, hp, hc]

theorem New_parse_error_self (f : localCertificateFactory) (env : FactoryEnv) (kp : KeyPair)
    (e : String) (hkg : env.keyGenResult = .ok kp) (hp : f.parent = none)
    (hc : env.createErr = none) (hpe : env.parseErr = some e) :
    (f.New env).1 = .error ("failed parse certificate bytes (cause: " ++ e ++ ")") := by
  simp [localCertificateFactory.New, hkg, hp, hc, hpe]

theorem New_create_error_parent (f : localCertificateFactory) (env : FactoryEnv) (kp : KeyPair)
    (p : Certificate) (s : Nat) (e : String) (hkg : env.keyGenResult = .ok kp)
    (hp : f.parent = some p) (hs : nextSerialNumber env.serialDraws = some s)
    (hc : env.createErr = some e) :
    (f.New env).1 = .error ("failed to create certificate (cause: " ++ e ++ ")") := by
  simp [localCertificateFactory.New, hkg, hp, hs, hc]

theorem New_parse_error_parent (f : localCertificateFactory) (env : FactoryEnv) (kp : KeyPair)
    (p : Certificate) (s : Nat) (e : String) (hkg : env.keyGenResult = .ok kp)
    (hp : f.parent = some p) (hs : nextSerialNumber env.serialDraws = some s)
    (hc : env.createErr = none) (hpe : env.parseErr = some e) :
    (f.New env).1 = .error ("failed parse certificate bytes (cause: " ++ e ++ ")") := by
  simp [localCertificateFactory.New, hkg, hp, hs, hc, hpe]

theorem New_template_starved (f : localCertificateFactory) (env : FactoryEnv) (kp : KeyPair)
    (p : Certificate) (hkg : env.keyGenResult = .ok kp) (hp : f.parent = some p)
    (hs : nextSerialNumber env.serialDraws = none) : (f.New env).2 = f.template := by
  simp [localCertificateFactory.New, hkg, hp, hs]

theorem New_template_keygen_error (f : localCertificateFactory) (env : FactoryEnv) (e : String)
    (hkg : env.keyGenResult = .error e) : (f.New env).2 = f.template := by
  simp [localCertificateFactory.New, hkg]

/-- Claim C1: for a factory with a non-nil parent whose key generation succeeds,
the claim says the certificate is created with the factory's parent as the
issuer certificate (so its issuer name is the parent's subject) and signed
with the signer key.  The code refutes the issuer part: `New` passes
`createTemplate` — not `factory.parent` — as the issuer-certificate argument
of `x509.CreateCertificate`, so the issued certificate's issuer name is the
template's subject ("leaf"), not the parent's subject ("root"); only the
signing key comes from the factory's signer. -/
theorem c1_parent_issuer_is_template_subject :
    leafFactory.parent = some rootParent ∧
    ∃ key cert, (leafFactory.New okEnv).1 = .ok (key, cert) ∧
      cert.signedBy = leafFactory.signer ∧
      cert.issuer = "leaf" ∧ rootParent.subject = "root" ∧ cert.issuer ≠ rootParent.subject := by
  refine ⟨rfl, 3, _, rfl, rfl, rfl, rfl, by decide⟩

/-- Claim C2: the claim says `unmarshalProviderRegistrations` returns the
records stored in the file, in order, and an empty list only for an empty
file.  The code refutes it: the read loop hands `file.Read` a zero-length
buffer, so it reads no bytes from ANY file and the function returns the
empty list for every file contents, including a file that decodes to a
one-record array. -/
theorem c2_unmarshal_always_returns_empty :
    (∀ codec contents, unmarshalProviderRegistrations codec contents = .ok []) ∧
    toyCodec.dec (toyCodec.enc [storedRegistration]) = some [storedRegistration] ∧
    [storedRegistration] ≠ ([] : List ProviderRegistration) := by
  exact ⟨unmarshal_always_empty, by decide, by decide⟩

/-- Claim C3: the claim says `prepareProviderRegistration` returns a stored
record exactly when the file holds a record whose provider AND email equal
the request's.  The code refutes it: with a file storing precisely such a
record, the function still builds a fresh registration (with a newly
generated, freshly encoded key and no registration resource), because the
broken read loop makes the stored records invisible; moreover its lookup
compares only the provider name, never the email. -/
theorem c3_prepare_ignores_stored_record :
    storedRegistration.Provider = requestProvider.Name ∧
    storedRegistration.Email = requestProvider.RegistrationEmail ∧
    prepareProviderRegistration toyCodec (toyCodec.enc [storedRegistration]) requestProvider
        (.ok { priv := 5, pub := 6 }) toyPkcs8Marshal =
      .ok { Provider := "p1", Email := "e1", EncodedKey := "BQ==", Registration := none } ∧
    ({ Provider := "p1", Email := "e1", EncodedKey := "BQ==", Registration := none } :
      ProviderRegistration) ≠ storedRegistration := by
  refine ⟨rfl, rfl, rfl, by decide⟩

/-- Claim C4: the claim says a successful `updateProviderRegistrations`
leaves the file holding the previous records with the first match replaced
(or the update appended) and every other previously stored record
preserved.  The code refutes the preservation part: because the broken
read loop parses every file as an empty array, the truncate-and-rewrite
stores ONLY the updated registration, and a previously stored, non-matching
record is lost. -/
theorem c4_update_drops_stored_records :
    storedRegistration.matches updatedRegistration = false ∧
    updateProviderRegistrations toyCodec updatedRegistration (toyCodec.enc [storedRegistration]) =
      .ok (toyCodec.enc [updatedRegistration]) ∧
    toyCodec.dec (toyCodec.enc [updatedRegistration]) = some [updatedRegistration] ∧
    storedRegistration ∉ [updatedRegistration] := by
  refine ⟨by decide, rfl, by decide, by decide⟩

/-- Claim C5: for every successful `localCertificateFactory.New`, the serial
number present in the returned certificate is exactly 1 when the factory's
parent is nil (self-signed), and is the value drawn from the process-wide
serial-number generator — a positive 63-bit integer — when the parent is
non-nil.  (The generator itself is modelled from the spec, §4.5, as its
source file is not part of this excerpt.) -/
theorem c5_serial_numbers (f : localCertificateFactory) (env : FactoryEnv) (key : Nat)
    (cert : Certificate) (h : (f.New env).1 = .ok (key, cert)) :
    (f.parent = none → cert.serialNumber = 1) ∧
    (f.parent ≠ none → nextSerialNumber env.serialDraws = some cert.serialNumber ∧
      1 ≤ cert.serialNumber ∧ cert.serialNumber < 2 ^ 63) := by
  obtain ⟨kp, hkg, hc, hpe, hkey, hcase⟩ := New_ok_inv f env key cert h
  rcases hcase with ⟨hp, hcert⟩ | ⟨p, s, hp, hs, hcert⟩
  · refine ⟨fun _ => by rw [hcert]; rfl, fun hne => absurd hp hne⟩
  · refine ⟨fun h0 => by rw [hp] at h0; exact absurd h0 (by simp), fun _ => ?_⟩
    have hb := nextSerialNumber_bounds env.serialDraws s hs
    subst hcert
    exact ⟨by simpa [x509CreateCertificate] using hs, hb.1, hb.2⟩

theorem c5_serial_numbers_witness :
    nextSerialNumber okEnv.serialDraws =
      some (x509CreateCertificate { leafTemplate with serialNumber := 9 }
        { leafTemplate with serialNumber := 9 } 4 10).serialNumber := by
  exact ((c5_serial_numbers leafFactory okEnv 3 _ rfl).2 (by simp [leafFactory])).1

/-- Claim C6: every successful `localCertificateFactory.New` returns a pair
whose certificate embeds the key pair's public component while the key pair's
private component is the returned private key: the certificate's public key
equals the public component of the returned private key (by the `keys`
package contract that `Public()` is the public component of `Private()`). -/
theorem c6_certificate_key_match (f : localCertificateFactory) (env : FactoryEnv)
    (kp : KeyPair) (key : Nat) (cert : Certificate)
    (hkg : env.keyGenResult = .ok kp) (h : (f.New env).1 = .ok (key, cert)) :
    key = kp.priv ∧ cert.publicKey = kp.pub := by
  obtain ⟨kp2, hkg2, hc, hpe, hkey, hcase⟩ := New_ok_inv f env key cert h
  rw [hkg] at hkg2
  obtain rfl : kp = kp2 := Except.ok.inj hkg2
  rcases hcase with ⟨hp, hcert⟩ | ⟨p, s, hp, hs, hcert⟩ <;> subst hcert <;> exact ⟨hkey, rfl⟩

theorem c6_certificate_key_match_witness :
    (3 : Nat) = (3 : Nat) ∧
      (x509CreateCertificate { leafTemplate with serialNumber := 9 }
        { leafTemplate with serialNumber := 9 } 4 10).publicKey = 4 := by
  exact c6_certificate_key_match leafFactory okEnv { priv := 3, pub := 4 } 3 _ rfl rfl

/-- Claim C7: `localCertificateFactory.New` returns an error exactly when key
generation, certificate creation, or certificate parsing fails; a key
generation failure is returned unchanged; and when all three steps succeed
it returns both a private key and a certificate.  The hypothesis `hser`
expresses that the process-wide serial generator always yields a value
(it retries random draws until one is nonzero). -/
theorem c7_new_error_semantics (f : localCertificateFactory) (env : FactoryEnv)
    (hser : f.parent = none ∨ (nextSerialNumber env.serialDraws).isSome = true) :
    ((∃ e, (f.New env).1 = .error e) ↔
      (∃ e, env.keyGenResult = .error e) ∨ env.createErr ≠ none ∨ env.parseErr ≠ none) ∧
    (∀ e, env.keyGenResult = .error e → (f.New env).1 = .error e) ∧
    (∀ kp, env.keyGenResult = .ok kp → env.createErr = none → env.parseErr = none →
      ∃ key cert, (f.New env).1 = .ok (key, cert)) := by
  refine ⟨?_, fun e he => New_keygen_error f env e he, ?_⟩
  · cases hkg : env.keyGenResult with
    | error e0 =>
      have hne := New_keygen_error f env e0 hkg
      simp [hne]
    | ok kp =>
      cases hp : f.parent with
      | none =>
        cases hc : env.createErr with
        | some e1 =>
          have hev := New_create_error_self f env kp e1 hkg hp hc
          simp [hev]
        | none =>
          cases hpe : env.parseErr with
          | some e2 =>
            have hev := New_parse_error_self f env kp e2 hkg hp hc hpe
            simp [hev]
          | none =>
            have hev := New_ok_self f env kp hkg hp hc hpe
            simp [hev]
      | some p =>
        have hs' : (nextSerialNumber env.serialDraws).isSome = true := by
          rcases hser with h | h
          · rw [hp] at h; exact absurd h (by simp)
          · exact h
        obtain ⟨s, hs⟩ := Option.isSome_iff_exists.mp hs'
        cases hc : env.createErr with
        | some e1 =>
          have hev := New_create_error_parent f env kp p s e1 hkg hp hs hc
          simp [hev]
        | none =>
          cases hpe : env.parseErr with
          | some e2 =>
            have hev := New_parse_error_parent f env kp p s e2 hkg hp hs hc hpe
            simp [hev]
          | none =>
            have hev := New_ok_parent f env kp p s hkg hp hs hc hpe
            simp [hev]
  · intro kp hkg hc hpe
    cases hp : f.parent with
    | none => exact ⟨_, _, New_ok_self f env kp hkg hp hc hpe⟩
    | some p =>
      have hs' : (nextSerialNumber env.serialDraws).isSome = true := by
        rcases hser with h | h
        · rw [hp] at h; exact absurd h (by simp)
        · exact h
      obtain ⟨s, hs⟩ := Option.isSome_iff_exists.mp hs'
      exact ⟨_, _, New_ok_parent f env kp p s hkg hp hs hc hpe⟩

theorem c7_new_error_semantics_witness :
    (∃ e, (leafFactory.New okEnv).1 = .error e) ↔
      (∃ e, okEnv.keyGenResult = .error e) ∨ okEnv.createErr ≠ none ∨ okEnv.parseErr ≠ none := by
  exact (c7_new_error_semantics leafFactory okEnv (Or.inr (by decide))).1

/-- Claim C8: a `New` call that reaches certificate creation overwrites the
caller-supplied template object's serial number in place (1 when the parent
is nil, the drawn serial otherwise) and leaves every other template field
unchanged; Go's aliasing of the template is modelled by returning the
post-call template, so a second call sharing the template starts from the
first call's write (last conjunct). -/
theorem c8_template_mutation (f : localCertificateFactory) (env : FactoryEnv) (kp : KeyPair)
    (hkg : env.keyGenResult = .ok kp) :
    (f.parent = none → (f.New env).2 = { f.template with serialNumber := 1 }) ∧
    (∀ p s, f.parent = some p → nextSerialNumber env.serialDraws = some s →
      (f.New env).2 = { f.template with serialNumber := s }) ∧
    ((f.New env).2.subject = f.template.subject ∧ (f.New env).2.issuer = f.template.issuer ∧
      (f.New env).2.publicKey = f.template.publicKey ∧ (f.New env).2.isCA = f.template.isCA ∧
      (f.New env).2.keyUsage = f.template.keyUsage ∧
      (f.New env).2.signedBy = f.template.signedBy) ∧
    (∀ p s, f.parent = some p → nextSerialNumber env.serialDraws = some s →
      ({ f with template := (f.New env).2 } : localCertificateFactory).template.serialNumber
        = s) := by
  refine ⟨fun hp => New_template_self f env kp hkg hp,
    fun p s hp hs => New_template_parent f env kp p s hkg hp hs, ?_, ?_⟩
  · cases hp : f.parent with
    | none => rw [New_template_self f env kp hkg hp]; exact ⟨rfl, rfl, rfl, rfl, rfl, rfl⟩
    | some p =>
      cases hs : nextSerialNumber env.serialDraws with
      | none =>
        rw [New_template_starved f env kp p hkg hp hs]
        exact ⟨rfl, rfl, rfl, rfl, rfl, rfl⟩
      | some s =>
        rw [New_template_parent f env kp p s hkg hp hs]
        exact ⟨rfl, rfl, rfl, rfl, rfl, rfl⟩
  · intro p s hp hs
    show (f.New env).2.serialNumber = s
    rw [New_template_parent f env kp p s hkg hp hs]

theorem c8_template_mutation_witness :
    (leafFactory.New okEnv).2 = { leafFactory.template with serialNumber := 9 } := by
  exact (c8_template_mutation leafFactory okEnv { priv := 3, pub := 4 } rfl).2.1
    rootParent 9 rfl (by decide)

/-- Claim C9: `GetPrivateKey` is total and has no error channel (its result
type is an optional key, never an error): it returns no key when
`EncodedKey` is the empty string, when it is not valid standard base64, or
when the decoded bytes do not parse as PKCS#8, and otherwise returns the
key parsed from the decoded bytes. -/
theorem c9_getprivatekey_never_errors (pkcs8Parse : List Nat → Option Nat)
    (r : ProviderRegistration) :
    (r.EncodedKey = "" → r.GetPrivateKey pkcs8Parse = none) ∧
    (base64Decode r.EncodedKey = none → r.GetPrivateKey pkcs8Parse = none) ∧
    (∀ bs, base64Decode r.EncodedKey = some bs → pkcs8Parse bs = none →
      r.GetPrivateKey pkcs8Parse = none) ∧
    (∀ bs key, r.EncodedKey ≠ "" → base64Decode r.EncodedKey = some bs →
      pkcs8Parse bs = some key → r.GetPrivateKey pkcs8Parse = some key) := by
  refine ⟨?_, ?_, ?_, ?_⟩
  · intro he; simp [ProviderRegistration.GetPrivateKey, he]
  · intro hd
    by_cases he : r.EncodedKey = "" <;> simp [ProviderRegistration.GetPrivateKey, he, hd]
  · intro bs hd hp
    by_cases he : r.EncodedKey = "" <;> simp [ProviderRegistration.GetPrivateKey, he, hd, hp]
  · intro bs key he hd hp
    simp [ProviderRegistration.GetPrivateKey, he, hd, hp]

theorem c9_getprivatekey_never_errors_witness :
    ProviderRegistration.GetPrivateKey toyPkcs8Parse
      { Provider := "p", Email := "e", EncodedKey := "BQ==", Registration := none } =
      some 5 := by
  exact (c9_getprivatekey_never_errors toyPkcs8Parse
    { Provider := "p", Email := "e", EncodedKey := "BQ==", Registration := none }).2.2.2
    [5] 5 (by decide) (by decide) rfl

/-- Claim C10: for a private key accepted by PKCS#8 marshalling (the parser
inverts the marshaller on it, its DER is a nonempty byte string),
`GetPrivateKey` recovers the key from a registration whose `EncodedKey` is
the standard base64 encoding of the key's PKCS#8 DER; in particular the
fresh registration built by `prepareProviderRegistration` carries such an
`EncodedKey`, from which `GetPrivateKey` recovers the generated key. -/
theorem c10_encoded_key_roundtrip (pkcs8Parse : List Nat → Option Nat)
    (pkcs8Marshal : Nat → Except String (List Nat)) (kp : KeyPair) (bs : List Nat)
    (hm : pkcs8Marshal kp.priv = .ok bs) (hbytes : ∀ b ∈ bs, b < 256) (hne : bs ≠ [])
    (hp : pkcs8Parse bs = some kp.priv) (codec : JsonCodec) (contents : List Nat)
    (provider : ProviderConfig) :
    (∀ r : ProviderRegistration, r.EncodedKey = base64Encode bs →
      r.GetPrivateKey pkcs8Parse = some kp.priv) ∧
    (∃ reg, prepareProviderRegistration codec contents provider (.ok kp) pkcs8Marshal =
        .ok reg ∧
      reg.EncodedKey = base64Encode bs ∧ reg.GetPrivateKey pkcs8Parse = some kp.priv) := by
  have hdec := base64Decode_base64Encode bs hbytes
  have hnem := base64Encode_ne_empty bs hne
  have hget : ∀ r : ProviderRegistration, r.EncodedKey = base64Encode bs →
      r.GetPrivateKey pkcs8Parse = some kp.priv := by
    intro r hr
    simp [ProviderRegistration.GetPrivateKey, hr, hnem, hdec, hp]
  refine ⟨hget, ?_⟩
  refine ⟨{ Provider := provider.Name
            Email := provider.RegistrationEmail
            EncodedKey := base64Encode bs
            Registration := none }, ?_, rfl, hget _ rfl⟩
  simp [prepareProviderRegistration, unmarshal_always_empty, hm]

theorem c10_encoded_key_roundtrip_witness :
    ∃ reg, prepareProviderRegistration toyCodec [] requestProvider
        (.ok { priv := 5, pub := 6 }) toyPkcs8Marshal = .ok reg ∧
      reg.EncodedKey = base64Encode [5] ∧ reg.GetPrivateKey toyPkcs8Parse = some 5 := by
  exact (c10_encoded_key_roundtrip toyPkcs8Parse toyPkcs8Marshal { priv := 5, pub := 6 } [5]
    rfl (by decide) (by decide) rfl toyCodec [] requestProvider).2
